import Mathlib

/-!
Verification of the fwkeeper port-forward supervisor (github.com/codozor/fwkeeper).

This file shallowly embeds the Go source of the repository:
 * `internal/config/config.go`   — configuration records and validation,
 * `internal/app/runner.go`      — the supervisor (`reloadConfig`, `startForwarder`,
                                   `stopForwarder`, `configChanged`),
 * `internal/forwarder`          — the per-forward reconcile loop and its
                                   exponential backoff (`calculateBackoff`),
 * `internal/locator`            — `BuildLocator`, `ServiceLocator.Locate`, `mapPorts`.

Go machine integers are embedded as `Int`/`Nat` with explicit wrapping where the
source converts between widths; `time.Duration` values are nanosecond counts;
fallible Go functions return `Except`/`Option`.  Maps are embedded as association
lists (Go maps have unique keys; every insertion in the source is guarded by an
absence check, which the embedding mirrors).
-/

namespace Fwkeeper

/-! ## Go string and integer helpers -/

/-- Embedding of Go `strconv.Atoi` digit accumulation: consume decimal digits,
failing on any non-digit character. -/
def goAtoiCore : List Char → Nat → Option Nat
  | [], acc => some acc
  | c :: cs, acc =>
      if c.isDigit then goAtoiCore cs (acc * 10 + (c.toNat - 48)) else none

/-- Largest value of Go `int` (64-bit) accepted by `strconv.Atoi`. -/
def int64MaxNat : Nat := 9223372036854775807

/-- Embedding of Go `strconv.Atoi`: optional sign, one or more decimal digits,
64-bit range check; `none` on any parse error. -/
def goAtoi (s : String) : Option Int :=
  match s.toList with
  | [] => none
  | '+' :: cs =>
      match cs, goAtoiCore cs 0 with
      | [], _ => none
      | _ :: _, some n => if n ≤ int64MaxNat then some (Int.ofNat n) else none
      | _ :: _, none => none
  | '-' :: cs =>
      match cs, goAtoiCore cs 0 with
      | [], _ => none
      | _ :: _, some n => if n ≤ int64MaxNat + 1 then some (-(Int.ofNat n)) else none
      | _ :: _, none => none
  | cs =>
      match goAtoiCore cs 0 with
      | some n => if n ≤ int64MaxNat then some (Int.ofNat n) else none
      | none => none

/-- Worker for `splitOnChar`: scan the character list, cutting at the
separator. -/
def splitOnCharAux (c : Char) : List Char → List Char → List String
  | [], acc => [String.mk acc.reverse]
  | x :: xs, acc =>
      if x == c then String.mk acc.reverse :: splitOnCharAux c xs []
      else splitOnCharAux c xs (x :: acc)

/-- Embedding of Go `strings.Split(s, sep)` for the one-character separators
the source uses (`":"` and `"/"`): the empty string yields `[""]`, and every
occurrence of the separator cuts. -/
def splitOnChar (c : Char) (s : String) : List String :=
  splitOnCharAux c s.toList []

/-- Rejoin split fragments with the separator (Go `strings.Join`). -/
def intercalateChar (c : Char) : List String → String
  | [] => ""
  | [x] => x
  | x :: rest => x ++ String.singleton c ++ intercalateChar c rest

/-- Embedding of Go `strings.SplitN(s, sep, 2)` for a one-character
separator: split at the first occurrence only. -/
def goSplitN2 (s : String) (c : Char) : List String :=
  match splitOnChar c s with
  | [] => [s]
  | [x] => [x]
  | x :: rest => [x, intercalateChar c rest]

/-- Embedding of the Go conversion `int32(x)`: wrap into `[-2^31, 2^31)`. -/
def int32ofInt (x : Int) : Int :=
  (x + 2147483648) % 4294967296 - 2147483648

/-! ## Configuration data model (`internal/config/config.go`) -/

/-- `config.PortForwardConfiguration`. -/
structure PortForwardConfiguration where
  Name : String
  Ports : List String
  Namespace : String
  Resource : String
deriving DecidableEq, Repr

/-- `config.LogsConfiguration`. -/
structure LogsConfiguration where
  Level : String
  Pretty : Bool
deriving DecidableEq, Repr

/-- `config.Configuration`. -/
structure Configuration where
  Forwards : List PortForwardConfiguration
  Logs : LogsConfiguration
deriving DecidableEq, Repr

/-- The port-validation body of `validateConfiguration` for one port string of
forward `pfName` (config.go lines 88-103): split at the first `:`, parse each
side with `Atoi`, and require both to lie in `1..=65535`. -/
def validatePort (pfName port : String) : Except String Unit :=
  let parts := goSplitN2 port ':'
  let badMsg := "invalid port specification in port forward " ++ pfName ++ " : " ++ port
  match goAtoi (parts.headD "") with
  | none => .error badMsg
  | some p1 =>
    if p1 < 1 ∨ p1 > 65535 then .error badMsg
    else
      if parts.length == 2 then
        match goAtoi (parts.getD 1 "") with
        | none => .error badMsg
        | some p2 => if p2 < 1 ∨ p2 > 65535 then .error badMsg else .ok ()
      else .ok ()

/-- Inner loop of `validateConfiguration` over one forward's port list. -/
def validatePorts (pfName : String) : List String → Except String Unit
  | [] => .ok ()
  | port :: rest => do
      let _ ← validatePort pfName port
      validatePorts pfName rest

/-- Loop of `validateConfiguration` over the forward list: each forward must
have a non-empty name and well-formed ports. -/
def validateForwards : List PortForwardConfiguration → Except String Unit
  | [] => .ok ()
  | pf :: rest => do
      let _ ← if pf.Name = "" then
          Except.error "each port forward must have a name"
        else Except.ok ()
      let _ ← validatePorts pf.Name pf.Ports
      validateForwards rest

/-- `config.validateConfiguration` (config.go lines 82-106).  Note: the only
checks are non-empty names and per-port range validity; nothing inspects the
relation between distinct port strings or distinct forwards. -/
def validateConfiguration (cfg : Configuration) : Except String Configuration :=
  match validateForwards cfg.Forwards with
  | .error e => .error e
  | .ok _ => .ok cfg

/-- One-to-five decimal digits, the building block of the CUE `#Port` pattern. -/
def digits1to5 (s : String) : Bool :=
  decide (1 ≤ s.length) && decide (s.length ≤ 5) && s.toList.all Char.isDigit

/-- The CUE schema constraint `#Port: =~"^([0-9]{1,5})(:[0-9]{1,5})?$"`
(schema.cue line 3). -/
def schemaPortOk (s : String) : Bool :=
  match splitOnChar ':' s with
  | [a] => digits1to5 a
  | [a, b] => digits1to5 a && digits1to5 b
  | _ => false

/-- The local half of a declared port string, as the configuration reader
parses it (everything before the first `:`). -/
def localPortOf (port : String) : Option Int :=
  goAtoi ((goSplitN2 port ':').headD "")

/-! ## `configChanged` (`internal/app/runner.go` lines 447-464) -/

/-- The index loop of `configChanged` over the old port list: report a change
when the new list is exhausted first or when some position differs. -/
def portsDiffer : List String → List String → Bool
  | [], _ => false
  | _ :: _, [] => true
  | p :: ps, q :: qs => if p ≠ q then true else portsDiffer ps qs

/-- `app.configChanged`: namespace or resource differ, or the port lists differ
in length or at some position.  The `Name` field is never consulted. -/
def configChanged (oldConfig newConfig : PortForwardConfiguration) : Bool :=
  if oldConfig.Namespace ≠ newConfig.Namespace ∨ oldConfig.Resource ≠ newConfig.Resource then
    true
  else if oldConfig.Ports.length ≠ newConfig.Ports.length then
    true
  else
    portsDiffer oldConfig.Ports newConfig.Ports

/-! ## Retry backoff (`internal/forwarder`, part of `forwarder.go`) -/

/-- `forwarder.RetryConfig`; delays are nanosecond counts (`time.Duration`). -/
structure RetryConfig where
  InitialDelay : Nat
  MaxDelay : Nat
  Multiplier : Rat
  Jitter : Bool
deriving DecidableEq, Repr

/-- `forwarder.DefaultRetryConfig()`: 100 ms initial, 30 s max, ×1.5, jitter on. -/
def DefaultRetryConfig : RetryConfig :=
  { InitialDelay := 100000000
    MaxDelay := 30000000000
    Multiplier := mkRat 3 2
    Jitter := true }

/-- Embedding of the Go expression `time.Duration(math.Pow(m, a))` for a
non-negative multiplier: the float power truncated toward zero to an integer.
For the multipliers and attempt counts relevant here `math.Pow` is exact, so
the value is `⌊mᵃ⌋ = ⌊numᵃ/denᵃ⌋`, computed with integer division. -/
def powTrunc (m : Rat) (a : Nat) : Nat :=
  m.num.toNat ^ a / m.den ^ a

/-- The pre-jitter value of `Forwarder.calculateBackoff` (forwarder.go):
`delay := InitialDelay * time.Duration(math.Pow(Multiplier, attempt))`, then
capped at `MaxDelay`. -/
def calculateBackoffBase (rc : RetryConfig) (attempt : Nat) : Nat :=
  let delay := rc.InitialDelay * powTrunc rc.Multiplier attempt
  if delay > rc.MaxDelay then rc.MaxDelay else delay

/-- `Forwarder.calculateBackoff` with the jitter branch: `jitterAmount :=
delay / 10` (integer division of `time.Duration`), `jitterRange :=
rand.Int63n(2 * jitterAmount)`, `delay - jitterAmount + jitterRange`.  The
random draw is passed in as `jitterRange`. -/
def calculateBackoff (rc : RetryConfig) (attempt : Nat) (jitterRange : Nat) : Nat :=
  let delay := calculateBackoffBase rc attempt
  if rc.Jitter then delay - delay / 10 + jitterRange else delay

/-- The backoff formula as the specification states it:
`delay(a) = min(max_delay, initial_delay · multiplierᵃ)`, exact (no
truncation), written from the spec's words for comparison with the source's
`calculateBackoffBase`. -/
def specDelay (a : Nat) : Rat :=
  min (30000000000 : Rat) (100000000 * ((3 : Rat) / 2) ^ a)

/-! ## Kubernetes objects consumed by the locators

Only the fields the locator code reads are embedded (`corev1.Service`,
`corev1.Pod`, `corev1.ServicePort`, `corev1.ContainerPort`,
`intstr.IntOrString`). -/

/-- `intstr.IntOrString`: a numeric target port or a named one. -/
inductive IntOrString where
  | int (v : Int)
  | str (s : String)
deriving DecidableEq, Repr

/-- `corev1.ServicePort` (fields read by `mapPorts`). -/
structure ServicePort where
  Port : Int
  TargetPort : IntOrString
deriving DecidableEq, Repr

/-- `corev1.ContainerPort` (fields read by `mapPorts`). -/
structure ContainerPort where
  Name : String
  ContainerPort : Int
  HostPort : Int
deriving DecidableEq, Repr

/-- `corev1.Container` (fields read by `mapPorts`). -/
structure Container where
  Ports : List ContainerPort
deriving DecidableEq, Repr

/-- `corev1.ServiceSpec` (fields read by `ServiceLocator.Locate`). -/
structure ServiceSpec where
  Selector : List (String × String)
  Ports : List ServicePort
deriving DecidableEq, Repr

/-- `corev1.Service` (fields read by the locator). -/
structure Service where
  Name : String
  Spec : ServiceSpec
deriving DecidableEq, Repr

/-- `corev1.PodPhase`. -/
inductive PodPhase where
  | Running | Pending | Succeeded | Failed | Unknown
deriving DecidableEq, Repr

/-- `corev1.Pod` (fields read by the locator): name, labels, phase,
containers. -/
structure Pod where
  Name : String
  Labels : List (String × String)
  Phase : PodPhase
  Containers : List Container
deriving DecidableEq, Repr

/-! ## Locator error taxonomy (`internal/locator`, error definitions file) -/

/-- `locator.ErrorType`. -/
inductive ErrorType where
  | Unknown
  | NetworkTransient
  | APITransient
  | ResourceNotFound
  | PodNotRunning
  | PodFailed
  | ConfigInvalid
  | PermissionDenied
  | NoPodAvailable
deriving DecidableEq, Repr

/-- `locator.LocateError` (the wrapped Go `error` cause is omitted; only the
type and message matter to the embedded code). -/
structure LocateError where
  errType : ErrorType
  Message : String
deriving DecidableEq, Repr

/-- `locator.NewConfigInvalidError`. -/
def NewConfigInvalidError (msg : String) : LocateError :=
  { errType := .ConfigInvalid, Message := msg }

/-! ## `ServiceLocator.mapPorts` (`internal/locator/service.go` lines 90-139) -/

/-- Decimal rendering of a Go `int` as `fmt.Sprintf("%d", ·)` produces it. -/
def goItoa (x : Int) : String :=
  toString x

/-- The parsing prefix of the `mapPorts` loop body (service.go lines 94-107):
`parts := strings.Split(s, ":")`, `srcPort := Atoi(parts[0])`, and
`dstPort := srcPort` unless `len(parts) > 1`, in which case
`dstPort := Atoi(parts[1])`; `Atoi` failures are `ConfigInvalid`. -/
def parseDeclaredPort (s : String) : Except LocateError (Int × Int) :=
  let parts := splitOnChar ':' s
  match goAtoi (parts.headD "") with
  | none => .error (NewConfigInvalidError ("invalid local port " ++ parts.headD ""))
  | some srcPort =>
      if parts.length > 1 then
        match goAtoi (parts.getD 1 "") with
        | none => .error (NewConfigInvalidError ("invalid remote port " ++ parts.getD 1 ""))
        | some dstPort => .ok (srcPort, dstPort)
      else .ok (srcPort, srcPort)

/-- All container ports of the chosen pod, in declaration order:
`lo.FlatMap(pod.Spec.Containers, func(c) []ContainerPort { return c.Ports })`. -/
def allContainerPorts (pod : Pod) : List ContainerPort :=
  (pod.Containers.map Container.Ports).flatten

/-- The remainder of the `mapPorts` loop body (service.go lines 109-135) for
one declared port string: find the service port whose `Port` equals the
declared remote (`lo.Find`), resolve its target — numeric `IntVal` directly, a
named target through the pod's container ports (`ContainerPort`, not
`HostPort`) — and render the resulting local:remote pair the way the source
does. -/
def mapOnePort (svc : Service) (pod : Pod) (s : String) : Except LocateError String :=
  match parseDeclaredPort s with
  | .error e => .error e
  | .ok (srcPort, dstPort) =>
    match svc.Spec.Ports.find? (fun p => p.Port == int32ofInt dstPort) with
    | none =>
        .error (NewConfigInvalidError
          ("service " ++ svc.Name ++ " does not expose port " ++ goItoa dstPort))
    | some sp =>
        match sp.TargetPort with
        | .int v =>
            let dstPort := v
            if dstPort == srcPort then .ok (goItoa srcPort)
            else .ok (goItoa srcPort ++ ":" ++ goItoa dstPort)
        | .str nm =>
            match (allContainerPorts pod).find? (fun p => p.Name == nm) with
            | none =>
                .error (NewConfigInvalidError
                  ("pod " ++ pod.Name ++ " does not have named port " ++ nm))
            | some pp =>
                let dstPort := pp.ContainerPort
                if dstPort == srcPort then .ok (goItoa srcPort)
                else .ok (goItoa srcPort ++ ":" ++ goItoa dstPort)

/-- `ServiceLocator.mapPorts`: the loop over the declared port strings,
accumulating the rendered pairs, stopping at the first error. -/
def mapPorts (svc : Service) (pod : Pod) : List String → Except LocateError (List String)
  | [] => .ok []
  | s :: rest =>
      match mapOnePort svc pod s with
      | .error e => .error e
      | .ok p =>
          match mapPorts svc pod rest with
          | .error e => .error e
          | .ok ps => .ok (p :: ps)

/-! ## `ServiceLocator.Locate` (`internal/locator/service.go` lines 37-86) -/

/-- The cluster's label-selector semantics used by
`Pods(ns).List(LabelSelector: labels.Set(sel).AsSelector().String())`: a pod is
listed iff it carries every `key=value` pair of the selector.  The empty
selector renders to the empty string and matches every pod. -/
def matchesSelector (sel : List (String × String)) (pod : Pod) : Bool :=
  sel.all (fun kv => pod.Labels.contains kv)

/-- The pod list the API returns for the service's selector, in the order the
API presents the namespace's pods. -/
def listPodsBySelector (sel : List (String × String)) (podsInNs : List Pod) : List Pod :=
  podsInNs.filter (matchesSelector sel)

/-- `ServiceLocator.Locate` after the two API calls succeeded: `svc` is the
fetched service and `podsInNs` the namespace's pods in API order.  The loop
returns, for the first listed pod whose phase is `Running`, the pod name and
the mapped ports (or the `mapPorts` error); with no running pod it fails with
`ErrorTypeNoPodAvailable`. -/
def ServiceLocatorLocate (declaredPorts : List String) (svc : Service)
    (podsInNs : List Pod) : Except LocateError (String × List String) :=
  match (listPodsBySelector svc.Spec.Selector podsInNs).find?
      (fun p => p.Phase == PodPhase.Running) with
  | some p =>
      match mapPorts svc p declaredPorts with
      | .error e => .error e
      | .ok ports => .ok (p.Name, ports)
  | none =>
      .error { errType := .NoPodAvailable
               Message := "no running pod found for service " ++ svc.Name }

/-! ## `BuildLocator` (`internal/locator/locator.go` lines 62-101) -/

/-- The locator value `BuildLocator` constructs (each variant records the
fields the corresponding locator struct stores, minus the client). -/
inductive Locator where
  | pod (name ns : String) (ports : List String)
  | service (name ns : String) (ports : List String)
  | deployment (name ns : String) (ports : List String)
  | statefulset (name ns : String) (ports : List String)
  | daemonset (name ns : String) (ports : List String)
deriving DecidableEq, Repr

/-- `locator.BuildLocator`: split the resource string on `/`; one component is
a direct pod reference; two components dispatch on the kind token
(`svc|service|services`, `dep|deployment|deployments`,
`sts|statefulset|statefulsets`, `ds|daemonset|daemonsets`); anything else is
an error.  There is no case for a `pod` kind token. -/
def BuildLocator (resource ns : String) (ports : List String) :
    Except String Locator :=
  let parts := splitOnChar '/' resource
  if parts.length == 1 then
    .ok (.pod resource ns ports)
  else if parts.length == 2 then
    let kindTok := parts.headD ""
    let name := parts.getD 1 ""
    if kindTok == "svc" || kindTok == "service" || kindTok == "services" then
      .ok (.service name ns ports)
    else if kindTok == "dep" || kindTok == "deployment" || kindTok == "deployments" then
      .ok (.deployment name ns ports)
    else if kindTok == "sts" || kindTok == "statefulset" || kindTok == "statefulsets" then
      .ok (.statefulset name ns ports)
    else if kindTok == "ds" || kindTok == "daemonset" || kindTok == "daemonsets" then
      .ok (.daemonset name ns ports)
    else
      .error ("unsupported resource type: " ++ kindTok ++
        " (supported: pod, svc/service, dep/deployment, sts/statefulset, ds/daemonset)")
  else
    .error ("invalid resource format: " ++ resource ++
      " (use 'pod-name', 'svc/service-name', 'dep/deployment-name', etc)")

/-- The resource grammar of the amended claim, written from its words: a bare
`pod-name`, or `kind/name` with the kind token drawn from the service,
deployment, statefulset or daemonset alias sets; every other form — including
a `pod/` prefix — is rejected. -/
def BuildLocatorSpec (resource ns : String) (ports : List String) :
    Except String Locator :=
  match splitOnChar '/' resource with
  | [_] => .ok (.pod resource ns ports)
  | [kindTok, name] =>
      if kindTok ∈ ["svc", "service", "services"] then
        .ok (.service name ns ports)
      else if kindTok ∈ ["dep", "deployment", "deployments"] then
        .ok (.deployment name ns ports)
      else if kindTok ∈ ["sts", "statefulset", "statefulsets"] then
        .ok (.statefulset name ns ports)
      else if kindTok ∈ ["ds", "daemonset", "daemonsets"] then
        .ok (.daemonset name ns ports)
      else
        .error ("unsupported resource type: " ++ kindTok ++
          " (supported: pod, svc/service, dep/deployment, sts/statefulset, ds/daemonset)")
  | _ =>
      .error ("invalid resource format: " ++ resource ++
        " (use 'pod-name', 'svc/service-name', 'dep/deployment-name', etc)")

/-! ## The supervisor (`internal/app/runner.go`)

The `Runner` holds `forwarders : map[string]*forwarder.Forwarder` and
`forwarderCancel : map[string]context.CancelFunc`; the source always mutates
the two maps together under the same mutex, so the embedding carries a single
association list from forward name to the session record.  A session records
the spec the forwarder was built from (`Forwarder.Config()`) and a fresh
identity (the Go object identity of the forwarder and its goroutine). -/

/-- One running forwarder as the supervisor tracks it. -/
structure Session where
  id : Nat
  spec : PortForwardConfiguration
deriving DecidableEq, Repr

/-- The `Runner` fields involved in a reload. -/
structure RunnerState where
  configuration : Configuration
  configPath : String
  forwarders : List (String × Session)
  nextId : Nat
deriving DecidableEq, Repr

/-- Observable events of a reload, in program order: `stopSession n` is
`stopForwarder` cancelling `n`'s context and deleting its map entries;
`startSession n` is `startForwarder` registering a new forwarder and spawning
its goroutine; the `log…` events are the corresponding log statements of
`reloadConfig` (runner.go lines 387-444). -/
inductive REvent where
  | stopSession (n : String)
  | startSession (n : String)
  | logReloadFailed (configFile : String)
  | logConfigReloaded
  | logRemoved (n : String)
  | logAdded (n : String)
  | logRestarted (n : String)
  | logFailedStart (n : String)
  | logFailedRestart (n : String)
deriving DecidableEq, Repr

/-- Whether `startForwarder`'s fallible construction succeeds for a spec.
`BuildLocator` is the configuration-dependent failure source;
`forwarder.New` only constructs the SPDY transport from the injected REST
config and is environment-determined, modelled as succeeding. -/
def startForwarderOk (pf : PortForwardConfiguration) : Bool :=
  match BuildLocator pf.Resource pf.Namespace pf.Ports with
  | .ok _ => true
  | .error _ => false

/-- `Runner.startForwarder` (runner.go lines 228-261): skip silently when the
name is already present; otherwise build the locator and forwarder (an error
leaves the maps untouched) and on success register the session and spawn its
task. -/
def startForwarder (st : RunnerState) (pf : PortForwardConfiguration) :
    RunnerState × List REvent × Bool :=
  match st.forwarders.lookup pf.Name with
  | some _ => (st, [], true)
  | none =>
      if startForwarderOk pf then
        ({ st with
            forwarders := (pf.Name, ⟨st.nextId, pf⟩) :: st.forwarders
            nextId := st.nextId + 1 },
          [.startSession pf.Name], true)
      else
        (st, [], false)

/-- `Runner.stopForwarder` (runner.go lines 265-273): when a cancel function
is registered for the name, invoke it and delete the name from both maps.
The cancel only *signals* the forwarder's context; nothing waits for the
forwarder goroutine to exit. -/
def stopForwarder (st : RunnerState) (n : String) :
    RunnerState × List REvent :=
  match st.forwarders.lookup n with
  | some _ =>
      ({ st with forwarders := st.forwarders.filter (fun e => e.1 ≠ n) },
        [.stopSession n])
  | none => (st, [])

/-- Names of the forwards in a configuration. -/
def forwardNames (cfg : Configuration) : List String :=
  cfg.Forwards.map PortForwardConfiguration.Name

/-- The removal phase of `reloadConfig` (runner.go lines 405-418): for every
name in the active map (iterated over the keys present when the loop starts),
stop and log it if no forward of the new configuration carries the name. -/
def removePhase (newConfig : Configuration) :
    List String → RunnerState → RunnerState × List REvent
  | [], st => (st, [])
  | n :: rest, st =>
      if (forwardNames newConfig).contains n then
        removePhase newConfig rest st
      else
        ((removePhase newConfig rest (stopForwarder st n).1).1,
         (stopForwarder st n).2 ++ [.logRemoved n]
           ++ (removePhase newConfig rest (stopForwarder st n).1).2)

/-- The add-or-restart phase of `reloadConfig` (runner.go lines 421-440): for
each forward of the new configuration, in order — restart (stop, then start)
when present with a changed spec, start when absent, leave unchanged specs
alone. -/
def addRestartPhase : List PortForwardConfiguration → RunnerState →
    RunnerState × List REvent
  | [], st => (st, [])
  | pf :: rest, st =>
      match st.forwarders.lookup pf.Name with
      | some existing =>
          if configChanged existing.spec pf then
            ((addRestartPhase rest (startForwarder (stopForwarder st pf.Name).1 pf).1).1,
             (stopForwarder st pf.Name).2
               ++ (startForwarder (stopForwarder st pf.Name).1 pf).2.1
               ++ (if (startForwarder (stopForwarder st pf.Name).1 pf).2.2 then
                     [REvent.logRestarted pf.Name]
                   else [REvent.logFailedRestart pf.Name])
               ++ (addRestartPhase rest
                     (startForwarder (stopForwarder st pf.Name).1 pf).1).2)
          else
            addRestartPhase rest st
      | none =>
          ((addRestartPhase rest (startForwarder st pf).1).1,
           (startForwarder st pf).2.1
             ++ (if (startForwarder st pf).2.2 then [REvent.logAdded pf.Name]
                 else [REvent.logFailedStart pf.Name])
             ++ (addRestartPhase rest (startForwarder st pf).1).2)

/-- `Runner.reloadConfig` (runner.go lines 387-444): a failed configuration
load is logged with the configuration path and changes nothing; a successful
load runs the removal phase over the current active names, then the
add-or-restart phase over the new forwards, then stores the new
configuration. -/
def reloadConfig (loadResult : Except String Configuration)
    (st : RunnerState) : RunnerState × List REvent :=
  match loadResult with
  | .error _ => (st, [.logReloadFailed st.configPath])
  | .ok newConfig =>
      ({ (addRestartPhase newConfig.Forwards
            (removePhase newConfig (st.forwarders.map Prod.fst) st).1).1
          with configuration := newConfig },
        [.logConfigReloaded]
          ++ (removePhase newConfig (st.forwarders.map Prod.fst) st).2
          ++ (addRestartPhase newConfig.Forwards
                (removePhase newConfig (st.forwarders.map Prod.fst) st).1).2)

/-- Names in the active forwarder map. -/
def activeNames (st : RunnerState) : List String :=
  st.forwarders.map Prod.fst

/-- Boolean set equality of two name lists. -/
def sameNames (l1 l2 : List String) : Bool :=
  l1.all l2.contains && l2.all l1.contains

/-! ## Task-level trace semantics for reloads

`stopForwarder` only invokes the forwarder's `context.CancelFunc`; the
forwarder goroutine observes the cancellation at its next suspension point
and exits some time later.  The trace model below makes that explicit: a
supervisor event marks a task cancelled, and a *separate* scheduler event
(`taskExit`) is needed before the task is gone.  `reloadConfig` emits no such
event (the source has no per-forwarder wait), so schedules in which the old
task is still alive after the new one starts are reachable. -/

/-- A forwarder goroutine from the scheduler's point of view. -/
structure TaskRec where
  tid : Nat
  forName : String
  cancelled : Bool
deriving DecidableEq, Repr

/-- Scheduler-level state: the supervisor's name→task map plus the set of
goroutines that have not yet exited. -/
structure CoState where
  active : List (String × Nat)
  tasks : List TaskRec
  nextId : Nat
deriving DecidableEq, Repr

/-- A schedulable step: a supervisor event from a reload, or a cancelled
forwarder goroutine reaching its exit. -/
inductive SchedEv where
  | sup (e : REvent)
  | taskExit (tid : Nat)
deriving DecidableEq, Repr

/-- Effect of one step on scheduler-level state.  `stopSession` marks the
mapped task cancelled and unmaps the name (the survivor keeps running);
`startSession` spawns a fresh task and maps the name to it; `taskExit`
removes a task, allowed only once it is cancelled (the forwarder loop exits
only on context cancellation); log events change nothing. -/
def execStep (st : CoState) : SchedEv → CoState
  | .sup (.stopSession n) =>
      match st.active.lookup n with
      | some t =>
          { active := st.active.filter (fun e => e.1 ≠ n)
            tasks := st.tasks.map
              (fun tk => if tk.tid == t then { tk with cancelled := true } else tk)
            nextId := st.nextId }
      | none => st
  | .sup (.startSession n) =>
      { active := (n, st.nextId) :: st.active
        tasks := ⟨st.nextId, n, false⟩ :: st.tasks
        nextId := st.nextId + 1 }
  | .sup _ => st
  | .taskExit t =>
      if (st.tasks.filter (fun tk => tk.tid == t)).all TaskRec.cancelled then
        { st with tasks := st.tasks.filter (fun tk => tk.tid ≠ t) }
      else st

/-- Run a schedule. -/
def execSched : List SchedEv → CoState → CoState
  | [], st => st
  | ev :: rest, st => execSched rest (execStep st ev)

/-- Tasks currently alive under a given forward name. -/
def liveTasksNamed (st : CoState) (n : String) : List TaskRec :=
  st.tasks.filter (fun tk => tk.forName == n)

/-! ## The forwarder reconcile loop (`Forwarder.Start`, forwarder.go)

One iteration of the `for` loop either observes a cancelled context at the
top and breaks, or runs to one of four outcomes, each taken verbatim from the
source: `Locate` fails; `portforward.New` fails; the `select` sees an error
before the ready signal; or the ready signal arrives (attempt reset to 0) and
the tunnel later terminates.  Every outcome sleeps `calculateBackoff` via
`delayRetry`, increments `attempt`, and `continue`s to a new resolution. -/

/-- The four ways one loop iteration of `Forwarder.Start` can run. -/
inductive IterOutcome where
  | locateErr
  | tunnelCreateErr
  | preReadyErr
  | runDrop
deriving DecidableEq, Repr

/-- Observable actions of the session loop: a backoff sleep (recording the
attempt counter the delay is computed from) and the ready signal. -/
inductive SessEv where
  | sleep (attempt : Nat)
  | ready
deriving DecidableEq, Repr

/-- Session state: the `Forwarder.attempt` field, the emitted trace, and
whether the loop has exited. -/
structure SessState where
  attempt : Nat
  trace : List SessEv
  terminated : Bool
deriving DecidableEq, Repr

/-- One pass through the `for` body of `Forwarder.Start`: a cancelled context
at the loop head breaks out; otherwise the iteration's outcome is handled as
the source does — error paths call `delayRetry` (sleeping
`calculateBackoff(attempt)`) then increment `attempt` and loop; the run-drop
path first reaches ready (resetting `attempt` to 0), then sleeps and
increments on the tunnel's termination. -/
def stepIter (cancelled : Bool) (o : IterOutcome) (s : SessState) : SessState :=
  if cancelled then { s with terminated := true }
  else
    match o with
    | .locateErr =>
        { s with trace := s.trace ++ [.sleep s.attempt], attempt := s.attempt + 1 }
    | .tunnelCreateErr =>
        { s with trace := s.trace ++ [.sleep s.attempt], attempt := s.attempt + 1 }
    | .preReadyErr =>
        { s with trace := s.trace ++ [.sleep s.attempt], attempt := s.attempt + 1 }
    | .runDrop =>
        { s with trace := s.trace ++ [.ready, .sleep 0], attempt := 1 }

/-- The loop of `Forwarder.Start` over a finite schedule of iteration inputs
(whether the context is cancelled at the loop head, and the iteration's
outcome otherwise).  The loop stops early exactly when an iteration
terminates it. -/
def sessionLoop : List (Bool × IterOutcome) → SessState → SessState
  | [], s => s
  | (c, o) :: rest, s =>
      if s.terminated then s else sessionLoop rest (stepIter c o s)

/-! ## Concrete instances used by counterexamples and witnesses -/

/-- Default logging configuration. -/
def infoLogs : LogsConfiguration := ⟨"info", false⟩

/-- A configuration in which two forwards declare the same local port 8080. -/
def dupPortsCfg : Configuration :=
  ⟨[⟨"api", ["8080"], "default", "api-pod"⟩,
    ⟨"db", ["8080:5432"], "default", "db-pod"⟩], infoLogs⟩

/-- The service of end-to-end scenario 5: port 80 targeting the named port
`http`. -/
def svcApi : Service := ⟨"api", ⟨[("app", "api")], [⟨80, .str "http"⟩]⟩⟩

/-- The chosen pod of scenario 5: container port `http` numbered 8080
(host port unset). -/
def podHttp : Pod := ⟨"api-1", [("app", "api")], .Running, [⟨[⟨"http", 8080, 0⟩]⟩]⟩

/-- A service whose selector map is empty. -/
def svcNoSel : Service := ⟨"lonely", ⟨[], [⟨80, .int 8080⟩]⟩⟩

/-- A pod that is not running. -/
def podPending : Pod := ⟨"pend-1", [], .Pending, []⟩

/-- A running pod carrying labels unrelated to any service. -/
def podOther : Pod := ⟨"other-1", [("app", "other")], .Running, []⟩

/-- A supervisor with no active forwarders and no forwards configured. -/
def emptyRunner : RunnerState := ⟨⟨[], infoLogs⟩, "fwkeeper.cue", [], 0⟩

/-- A forward whose locator cannot be built (`invalid/x` is an unsupported
resource kind), so `startForwarder` fails for it. -/
def badForward : PortForwardConfiguration := ⟨"a", ["8080"], "default", "invalid/x"⟩

/-- A configuration containing only the unstartable forward. -/
def badCfg : Configuration := ⟨[badForward], infoLogs⟩

/-- A startable forward named `a`. -/
def pfA : PortForwardConfiguration := ⟨"a", ["8080"], "default", "p1"⟩

/-- The same forward with an extra port: `configChanged pfA pfA2` holds. -/
def pfA2 : PortForwardConfiguration := ⟨"a", ["8080", "9000"], "default", "p1"⟩

/-- A supervisor with the session for `pfA` active as task 0. -/
def stWithA : RunnerState := ⟨⟨[pfA], infoLogs⟩, "fwkeeper.cue", [("a", ⟨0, pfA⟩)], 1⟩

/-- A reloaded configuration that changes forward `a`. -/
def cfgA2 : Configuration := ⟨[pfA2], infoLogs⟩

/-- Scheduler-level view of `stWithA`: goroutine 0 runs forward `a`. -/
def coWithA : CoState := ⟨[("a", 0)], [⟨0, "a", false⟩], 1⟩

/-- A startable forward named `b`, for reload witnesses. -/
def pfB : PortForwardConfiguration := ⟨"b", ["9000"], "default", "p2"⟩

/-- A supervisor with sessions for `a` and `b` active. -/
def stWithAB : RunnerState :=
  ⟨⟨[pfA, pfB], infoLogs⟩, "fwkeeper.cue", [("a", ⟨0, pfA⟩), ("b", ⟨1, pfB⟩)], 2⟩

/-- A reloaded configuration keeping `a` unchanged and dropping `b`. -/
def cfgOnlyA : Configuration := ⟨[pfA], infoLogs⟩

/-! # Theorems -/

/-! ## Shared lemmas -/

theorem portsDiffer_self : ∀ ps : List String, portsDiffer ps ps = false
  | [] => rfl
  | p :: ps => by simp [portsDiffer, portsDiffer_self ps]

theorem portsDiffer_true_iff :
    ∀ ps qs : List String, ps.length = qs.length → (portsDiffer ps qs = true ↔ ps ≠ qs)
  | [], [], _ => by simp [portsDiffer]
  | [], _ :: _, h => by simp at h
  | _ :: _, [], h => by simp at h
  | p :: ps, q :: qs, h => by
      simp only [List.length_cons, Nat.add_right_cancel_iff] at h
      by_cases hpq : p = q
      · subst hpq
        simpa [portsDiffer] using portsDiffer_true_iff ps qs h
      · simp [portsDiffer, hpq]

/-! ## C8: `configChanged` compares namespace, resource and the ordered ports -/

/-- C8: `configChanged old new` returns true iff the namespace, the resource,
or the ordered port list differs (reordering counts; the name field is never
consulted), and `configChanged x x = false` for every spec `x`. -/
theorem configChanged_spec (o n : PortForwardConfiguration) :
    (configChanged o n = true ↔
      (o.Namespace ≠ n.Namespace ∨ o.Resource ≠ n.Resource ∨ o.Ports ≠ n.Ports)) ∧
    configChanged o o = false := by
  constructor
  · unfold configChanged
    by_cases h1 : o.Namespace ≠ n.Namespace ∨ o.Resource ≠ n.Resource
    · rw [if_pos h1]
      simp only [true_iff]
      tauto
    · rw [if_neg h1]
      by_cases h2 : o.Ports.length ≠ n.Ports.length
      · rw [if_pos h2]
        have hne : o.Ports ≠ n.Ports := fun he => h2 (by rw [he])
        simp only [true_iff]
        tauto
      · rw [if_neg h2]
        push_neg at h1 h2
        rw [portsDiffer_true_iff _ _ h2]
        obtain ⟨ha, hb⟩ := h1
        constructor
        · intro hp
          exact Or.inr (Or.inr hp)
        · rintro (hc | hc | hc)
          · exact absurd ha hc
          · exact absurd hb hc
          · exact hc
  · simp [configChanged, portsDiffer_self]

/-! ## C7: duplicate local ports pass configuration validation -/

/-- C7 (code bug): `dupPortsCfg` declares local port 8080 in two different
forwards; every port string satisfies the CUE `#Port` schema pattern, and
`validateConfiguration` accepts the configuration, so a configuration with
duplicate local ports is delivered to the supervisor even though the test
suite (`TestReadConfigurationPortConflict`) expects a "port conflict" error. -/
theorem validateConfiguration_accepts_duplicate_local :
    (dupPortsCfg.Forwards.map fun pf => pf.Ports.map localPortOf) =
      [[some 8080], [some 8080]] ∧
    dupPortsCfg.Forwards.all (fun pf => pf.Ports.all schemaPortOk) = true ∧
    validateConfiguration dupPortsCfg = .ok dupPortsCfg :=
  ⟨rfl, rfl, rfl⟩

/-! ## C2: the backoff truncates the multiplier power -/

/-- C2 (code bug): with the default retry parameters and jitter off, the
source computes `InitialDelay * time.Duration(math.Pow(1.5, attempt))`, whose
conversion to `time.Duration` truncates `1.5¹` to `1`; at attempt 1 the code
therefore sleeps 100 ms where the specified formula
`min(max_delay, initial_delay·multiplierᵃ)` gives 150 ms. -/
theorem calculateBackoff_truncation_bug :
    calculateBackoffBase { DefaultRetryConfig with Jitter := false } 1 = 100000000 ∧
    specDelay 1 = 150000000 ∧
    ((calculateBackoffBase { DefaultRetryConfig with Jitter := false } 1 : Rat) ≠
      specDelay 1) := by
  have h1 : calculateBackoffBase { DefaultRetryConfig with Jitter := false } 1 =
      100000000 := rfl
  have h2 : specDelay 1 = 150000000 := by
    unfold specDelay
    rw [pow_one, min_eq_right (by norm_num)]
    norm_num
  refine ⟨h1, h2, ?_⟩
  rw [h1, h2]
  norm_num

/-! ## C6: the resource grammar of `BuildLocator` -/

/-- C6 (counterexample): `pod/name` is not accepted as a pod reference; the
builder rejects the `pod` kind token with an "unsupported resource type"
error (whose own text lists `pod` among the supported kinds). -/
theorem BuildLocator_rejects_pod_kind :
    BuildLocator "pod/name" "default" ["80"] =
      .error ("unsupported resource type: pod" ++
        " (supported: pod, svc/service, dep/deployment, sts/statefulset, ds/daemonset)") :=
  rfl

/-- C6 (amended): `BuildLocator` accepts exactly a bare `pod-name` (a pod
locator for the whole resource string) and `kind/name` for the kind tokens
`svc|service|services`, `dep|deployment|deployments`,
`sts|statefulset|statefulsets`, `ds|daemonset|daemonsets`; every other form —
`pod/name` included — is an error. -/
theorem BuildLocator_grammar (r ns : String) (ports : List String) :
    BuildLocator r ns ports = BuildLocatorSpec r ns ports := by
  unfold BuildLocator BuildLocatorSpec
  rcases h : splitOnChar '/' r with _ | ⟨a, _ | ⟨b, _ | ⟨c, rest⟩⟩⟩
  · rfl
  · rfl
  · simp only [List.length_cons, List.length_nil, List.headD, List.getD,
      List.mem_cons, List.mem_singleton, List.not_mem_nil, or_false,
      Bool.or_eq_true, beq_iff_eq, or_assoc]
    norm_num
  · simp only [List.length_cons]
    rw [if_neg (by simp), if_neg (by simp)]

/-! ## C9: a failed reload changes nothing and logs the path -/

/-- C9: when loading the new configuration file fails, `reloadConfig` leaves
the whole runner state — active forwarder map, stored configuration snapshot,
everything — unchanged, emits exactly one error log event naming the
configuration file path, and returns to waiting for the next event. -/
theorem reloadConfig_load_failure_preserves_state (e : String) (st : RunnerState) :
    reloadConfig (.error e) st = (st, [.logReloadFailed st.configPath]) :=
  rfl

/-! ## C5: every failure retries; only cancellation exits the loop -/

theorem stepIter_false_terminated (o : IterOutcome) (s : SessState) :
    (stepIter false o s).terminated = s.terminated := by
  cases o <;> simp [stepIter]

/-- C5: in `Forwarder.Start`, every error outcome of an iteration — resolution
failure, tunnel-creation failure, an error before the ready signal, or a
mid-run tunnel drop — sleeps one backoff delay, increments the attempt
counter (from 0 on the mid-run path, whose ready signal resets it first), and
re-enters resolution rather than terminating; over any schedule, the loop
terminates only when the session's context is cancelled. -/
theorem Start_retries_errors_and_exits_only_on_cancel :
    (∀ (o : IterOutcome) (s : SessState),
      (stepIter false o s).terminated = s.terminated ∧
      (stepIter false o s).trace =
        s.trace ++ (if o = .runDrop then [SessEv.ready, SessEv.sleep 0]
                    else [SessEv.sleep s.attempt]) ∧
      (stepIter false o s).attempt = (if o = .runDrop then 0 else s.attempt) + 1) ∧
    (∀ (evs : List (Bool × IterOutcome)) (s : SessState),
      (sessionLoop evs s).terminated = true →
      s.terminated = true ∨ (evs.map Prod.fst).contains true = true) := by
  constructor
  · intro o s
    refine ⟨stepIter_false_terminated o s, ?_, ?_⟩ <;> cases o <;> simp [stepIter]
  · intro evs
    induction evs with
    | nil => intro s h; exact Or.inl h
    | cons e rest ih =>
        intro s h
        obtain ⟨c, o⟩ := e
        cases hs : s.terminated with
        | true => exact Or.inl rfl
        | false =>
            simp only [sessionLoop, hs, Bool.false_eq_true, if_false] at h
            cases c with
            | true => simp
            | false =>
                rcases ih (stepIter false o s) h with h1 | h2
                · rw [stepIter_false_terminated o s, hs] at h1
                  exact absurd h1 (by simp)
                · right
                  simpa using h2

/-- C5 witness: a resolution failure at attempt 0 sleeps `backoff(0)`,
advances to attempt 1 and does not terminate; a mid-run drop after a ready
signal leaves attempt 1; and the loop-termination implication holds on a
schedule whose second iteration sees a cancelled context. -/
theorem Start_retries_witness :
    (stepIter false .locateErr ⟨0, [], false⟩).terminated = false ∧
    (stepIter false .locateErr ⟨0, [], false⟩).trace = [SessEv.sleep 0] ∧
    (stepIter false .runDrop ⟨5, [], false⟩).attempt = 1 ∧
    ((sessionLoop [(false, .locateErr), (true, .locateErr)] ⟨0, [], false⟩).terminated = true →
      (⟨0, [], false⟩ : SessState).terminated = true ∨
        (([(false, IterOutcome.locateErr), (true, IterOutcome.locateErr)].map
          Prod.fst).contains true) = true) :=
  ⟨(Start_retries_errors_and_exits_only_on_cancel.1 .locateErr ⟨0, [], false⟩).1,
   (Start_retries_errors_and_exits_only_on_cancel.1 .locateErr ⟨0, [], false⟩).2.1,
   (Start_retries_errors_and_exits_only_on_cancel.1 .runDrop ⟨5, [], false⟩).2.2,
   Start_retries_errors_and_exits_only_on_cancel.2
     [(false, .locateErr), (true, .locateErr)] ⟨0, [], false⟩⟩

/-! ## C4: named service-port translation -/

/-- C4: when a declared port parses to `(L, R)` and the service port whose
`Port` equals `R` targets a *named* port, `mapPorts` looks the name up across
the chosen pod's containers: if absent, the port fails with a `ConfigInvalid`
error; if present, the produced pair keeps local `L` and uses that container
port's numeric `ContainerPort` as the remote. -/
theorem mapPorts_named_target (svc : Service) (pod : Pod) (ps : String)
    (L R : Int) (sp : ServicePort) (nm : String)
    (hparse : parseDeclaredPort ps = .ok (L, R))
    (hsp : svc.Spec.Ports.find? (fun p => p.Port == int32ofInt R) = some sp)
    (htp : sp.TargetPort = .str nm) :
    ((allContainerPorts pod).find? (fun p => p.Name == nm) = none →
      mapOnePort svc pod ps =
        .error (NewConfigInvalidError
          ("pod " ++ pod.Name ++ " does not have named port " ++ nm))) ∧
    (∀ pp, (allContainerPorts pod).find? (fun p => p.Name == nm) = some pp →
      mapOnePort svc pod ps =
        .ok (if pp.ContainerPort == L then goItoa L
             else goItoa L ++ ":" ++ goItoa pp.ContainerPort)) := by
  constructor
  · intro hnone
    simp [mapOnePort, hparse, hsp, htp, hnone]
  · intro pp hpp
    simp only [mapOnePort, hparse, hsp, htp, hpp]
    split <;> rfl

/-- C4 witness (end-to-end scenario 5): service `api` exposes port 80 whose
target is the name `http`; the chosen pod has container port `http = 8080`;
the declared port `"80"` yields the pair local 80, remote 8080. -/
theorem mapPorts_named_target_witness :
    parseDeclaredPort "80" = .ok (80, 80) ∧
    svcApi.Spec.Ports.find? (fun p => p.Port == int32ofInt 80) =
      some ⟨80, .str "http"⟩ ∧
    (allContainerPorts podHttp).find? (fun p => p.Name == "http") =
      some ⟨"http", 8080, 0⟩ ∧
    mapOnePort svcApi podHttp "80" = .ok "80:8080" ∧
    mapPorts svcApi podHttp ["80"] = .ok ["80:8080"] :=
  ⟨rfl, rfl, rfl,
   (mapPorts_named_target svcApi podHttp "80" 80 80 ⟨80, .str "http"⟩ "http"
      rfl rfl rfl).2 ⟨"http", 8080, 0⟩ rfl,
   rfl⟩

/-! ## C10: an empty service selector lists every pod of the namespace -/

/-- C10: when the service's selector map is empty, the rendered label selector
matches every pod, so `ServiceLocator.Locate` lists *all* pods of the
namespace and returns the first one whose phase is Running — a pod possibly
entirely unrelated to the service. -/
theorem Locate_empty_selector_lists_all_pods (declaredPorts : List String)
    (svc : Service) (pods : List Pod) (h : svc.Spec.Selector = []) :
    listPodsBySelector svc.Spec.Selector pods = pods ∧
    ServiceLocatorLocate declaredPorts svc pods =
      (match pods.find? (fun p => p.Phase == PodPhase.Running) with
       | some p =>
          (match mapPorts svc p declaredPorts with
           | .error e => .error e
           | .ok ports => .ok (p.Name, ports))
       | none =>
          .error { errType := .NoPodAvailable
                   Message := "no running pod found for service " ++ svc.Name }) := by
  have hall : listPodsBySelector svc.Spec.Selector pods = pods := by
    rw [h]
    simp [listPodsBySelector, matchesSelector]
  refine ⟨hall, ?_⟩
  unfold ServiceLocatorLocate
  rw [hall]

/-- C10 witness: a service with an empty selector over a namespace holding a
pending pod and a running pod with unrelated labels forwards to the running
unrelated pod. -/
theorem Locate_empty_selector_witness :
    svcNoSel.Spec.Selector = [] ∧
    listPodsBySelector svcNoSel.Spec.Selector [podPending, podOther] =
      [podPending, podOther] ∧
    ServiceLocatorLocate ["80"] svcNoSel [podPending, podOther] =
      .ok ("other-1", ["80:8080"]) :=
  ⟨rfl,
   (Locate_empty_selector_lists_all_pods ["80"] svcNoSel [podPending, podOther] rfl).1,
   (Locate_empty_selector_lists_all_pods ["80"] svcNoSel [podPending, podOther] rfl).2⟩

/-! ## Association-list lemmas for the supervisor's maps -/

theorem lookup_filter_ne {β : Type} (l : List (String × β)) (n : String) :
    List.lookup n (l.filter (fun e => e.1 ≠ n)) = none := by
  induction l with
  | nil => rfl
  | cons e rest ih =>
      obtain ⟨k, v⟩ := e
      by_cases hk : k = n
      · rw [List.filter_cons, if_neg (by simp [hk])]
        exact ih
      · rw [List.filter_cons, if_pos (by simp [hk])]
        have hnk : (n == k) = false := by
          simp only [beq_eq_false_iff_ne, ne_eq]
          exact fun he => hk he.symm
        simp only [List.lookup, hnk]
        exact ih

theorem lookup_filter_ne_of_ne {β : Type} {l : List (String × β)} {k n : String}
    (h : k ≠ n) :
    List.lookup k (l.filter (fun e => e.1 ≠ n)) = List.lookup k l := by
  induction l with
  | nil => rfl
  | cons e rest ih =>
      obtain ⟨k', v⟩ := e
      by_cases hk' : k' = n
      · rw [List.filter_cons, if_neg (by simp [hk'])]
        have hkk : (k == k') = false := by
          simp only [beq_eq_false_iff_ne, ne_eq]
          intro he
          exact h (he.trans hk')
        simp only [List.lookup, hkk]
        exact ih
      · rw [List.filter_cons, if_pos (by simp [hk'])]
        simp only [List.lookup]
        cases hkk : k == k' with
        | true => rfl
        | false => exact ih

theorem filter_ne_of_lookup_none {β : Type} {l : List (String × β)} {n : String}
    (h : List.lookup n l = none) : l.filter (fun e => e.1 ≠ n) = l := by
  induction l with
  | nil => rfl
  | cons e rest ih =>
      obtain ⟨k, v⟩ := e
      by_cases hk : k = n
      · rw [List.lookup, show (n == k) = true by simp [hk]] at h
        simp at h
      · have hnk : (n == k) = false := by
          simp only [beq_eq_false_iff_ne, ne_eq]
          exact fun he => hk he.symm
        rw [List.lookup, hnk] at h
        rw [List.filter_cons, if_pos (by simp [hk]), ih h]

theorem mem_keys_of_lookup_some {β : Type} {l : List (String × β)} {k : String}
    {v : β} (h : List.lookup k l = some v) : k ∈ l.map Prod.fst := by
  induction l with
  | nil => simp [List.lookup] at h
  | cons e rest ih =>
      obtain ⟨k', v'⟩ := e
      by_cases hk : k' = k
      · simp [hk]
      · have hkk : (k == k') = false := by
          simp only [beq_eq_false_iff_ne, ne_eq]
          exact fun he => hk he.symm
        rw [List.lookup, hkk] at h
        simpa using Or.inr (ih h)

theorem mem_keys_filter_ne {β : Type} {l : List (String × β)} {k n : String} :
    k ∈ (l.filter (fun e => e.1 ≠ n)).map Prod.fst ↔ k ∈ l.map Prod.fst ∧ k ≠ n := by
  simp only [List.mem_map, List.mem_filter, decide_eq_true_eq]
  constructor
  · rintro ⟨e, ⟨he, hne⟩, rfl⟩
    exact ⟨⟨e, he, rfl⟩, hne⟩
  · rintro ⟨⟨e, he, rfl⟩, hne⟩
    exact ⟨e, ⟨he, hne⟩, rfl⟩

/-! ## `stopForwarder` and `startForwarder` lemmas -/

theorem stopForwarder_forwarders (st : RunnerState) (n : String) :
    (stopForwarder st n).1.forwarders = st.forwarders.filter (fun e => e.1 ≠ n) := by
  unfold stopForwarder
  cases hl : List.lookup n st.forwarders with
  | some v => rfl
  | none => exact (filter_ne_of_lookup_none hl).symm

theorem stopForwarder_events_of_lookup {st : RunnerState} {n : String} {v : Session}
    (h : List.lookup n st.forwarders = some v) :
    (stopForwarder st n).2 = [.stopSession n] := by
  simp [stopForwarder, h]

theorem mem_activeNames_stop {st : RunnerState} {n k : String} :
    k ∈ activeNames (stopForwarder st n).1 ↔ k ∈ activeNames st ∧ k ≠ n := by
  rw [activeNames, stopForwarder_forwarders]
  exact mem_keys_filter_ne

theorem mem_activeNames_start_of_mem {st : RunnerState}
    {pf : PortForwardConfiguration} {k : String} (hk : k ∈ activeNames st) :
    k ∈ activeNames (startForwarder st pf).1 := by
  unfold startForwarder
  cases hl : List.lookup pf.Name st.forwarders with
  | some v => exact hk
  | none =>
      by_cases hok : startForwarderOk pf = true
      · rw [if_pos hok]
        simpa [activeNames] using Or.inr hk
      · rw [if_neg hok]
        exact hk

theorem mem_activeNames_start_elim {st : RunnerState}
    {pf : PortForwardConfiguration} {k : String}
    (h : k ∈ activeNames (startForwarder st pf).1) :
    k = pf.Name ∨ k ∈ activeNames st := by
  unfold startForwarder at h
  cases hl : List.lookup pf.Name st.forwarders with
  | some v =>
      rw [hl] at h
      exact Or.inr h
  | none =>
      rw [hl] at h
      by_cases hok : startForwarderOk pf = true
      · rw [if_pos hok] at h
        simpa [activeNames] using h
      · rw [if_neg hok] at h
        exact Or.inr h

theorem pfName_mem_start {st : RunnerState} {pf : PortForwardConfiguration}
    (hok : startForwarderOk pf = true) :
    pf.Name ∈ activeNames (startForwarder st pf).1 := by
  unfold startForwarder
  cases hl : List.lookup pf.Name st.forwarders with
  | some v => exact mem_keys_of_lookup_some hl
  | none =>
      rw [if_pos hok]
      simp [activeNames]

theorem startForwarder_lookup_ne {st : RunnerState}
    {pf : PortForwardConfiguration} {k : String} (h : k ≠ pf.Name) :
    List.lookup k (startForwarder st pf).1.forwarders =
      List.lookup k st.forwarders := by
  unfold startForwarder
  cases hl : List.lookup pf.Name st.forwarders with
  | some v => rfl
  | none =>
      by_cases hok : startForwarderOk pf = true
      · rw [if_pos hok]
        have hkk : (k == pf.Name) = false := by
          simp only [beq_eq_false_iff_ne, ne_eq]
          exact h
        simp only [List.lookup, hkk]
      · rw [if_neg hok]

theorem startForwarder_start_events {st : RunnerState}
    {pf : PortForwardConfiguration}
    (hl : List.lookup pf.Name st.forwarders = none)
    (hok : startForwarderOk pf = true) :
    (startForwarder st pf).2.1 = [.startSession pf.Name] ∧
      (startForwarder st pf).2.2 = true := by
  unfold startForwarder
  rw [hl, if_pos hok]
  exact ⟨rfl, rfl⟩

/-! ## Removal-phase lemmas -/

theorem removePhase_active_sub (cfg : Configuration) (ns : List String) :
    ∀ (st : RunnerState) (k : String),
      k ∈ activeNames (removePhase cfg ns st).1 →
      k ∈ activeNames st ∧ (k ∈ ns → k ∈ forwardNames cfg) := by
  induction ns with
  | nil =>
      intro st k h
      exact ⟨h, fun hk => absurd hk (List.not_mem_nil k)⟩
  | cons n rest ih =>
      intro st k h
      simp only [removePhase] at h
      by_cases hc : (forwardNames cfg).contains n = true
      · rw [if_pos hc] at h
        obtain ⟨h1, h2⟩ := ih st k h
        refine ⟨h1, fun hk => ?_⟩
        rcases List.mem_cons.mp hk with rfl | hk'
        · exact List.elem_iff.mp hc
        · exact h2 hk'
      · rw [if_neg hc] at h
        obtain ⟨h1, h2⟩ := ih (stopForwarder st n).1 k h
        rw [mem_activeNames_stop] at h1
        refine ⟨h1.1, fun hk => ?_⟩
        rcases List.mem_cons.mp hk with rfl | hk'
        · exact absurd rfl h1.2
        · exact h2 hk'

theorem removePhase_active_keep (cfg : Configuration) (ns : List String) :
    ∀ (st : RunnerState) (k : String),
      k ∈ activeNames st → k ∈ forwardNames cfg →
      k ∈ activeNames (removePhase cfg ns st).1 := by
  induction ns with
  | nil => intro st k hk _; exact hk
  | cons n rest ih =>
      intro st k hk hcfg
      simp only [removePhase]
      by_cases hc : (forwardNames cfg).contains n = true
      · rw [if_pos hc]
        exact ih st k hk hcfg
      · rw [if_neg hc]
        have hkn : k ≠ n := fun he => hc (List.elem_iff.mpr (he ▸ hcfg))
        exact ih _ k (mem_activeNames_stop.mpr ⟨hk, hkn⟩) hcfg

theorem removePhase_lookup_preserved (cfg : Configuration) (ns : List String) :
    ∀ (st : RunnerState) (k : String), k ∈ forwardNames cfg →
      List.lookup k (removePhase cfg ns st).1.forwarders =
        List.lookup k st.forwarders := by
  induction ns with
  | nil => intro st k _; rfl
  | cons n rest ih =>
      intro st k hcfg
      simp only [removePhase]
      by_cases hc : (forwardNames cfg).contains n = true
      · rw [if_pos hc]
        exact ih st k hcfg
      · rw [if_neg hc]
        have hkn : k ≠ n := fun he => hc (List.elem_iff.mpr (he ▸ hcfg))
        show List.lookup k
            (removePhase cfg rest (stopForwarder st n).1).1.forwarders = _
        rw [ih _ k hcfg, stopForwarder_forwarders, lookup_filter_ne_of_ne hkn]

/-! ## Add-or-restart-phase lemmas -/

theorem addRestartPhase_active_sub (N : List String) :
    ∀ (l : List PortForwardConfiguration) (st : RunnerState),
      (∀ pf ∈ l, pf.Name ∈ N) → (∀ k ∈ activeNames st, k ∈ N) →
      ∀ k ∈ activeNames (addRestartPhase l st).1, k ∈ N := by
  intro l
  induction l with
  | nil => intro st _ hst k hk; exact hst k hk
  | cons pf rest ih =>
      intro st hl hst k hk
      have hpf : pf.Name ∈ N := hl pf (List.mem_cons_self pf rest)
      have hrest : ∀ q ∈ rest, q.Name ∈ N :=
        fun q hq => hl q (List.mem_cons_of_mem pf hq)
      cases hlk : List.lookup pf.Name st.forwarders with
      | none =>
          simp only [addRestartPhase, hlk] at hk
          refine ih _ hrest ?_ k hk
          intro k' hk'
          rcases mem_activeNames_start_elim hk' with rfl | hmem
          · exact hpf
          · exact hst k' hmem
      | some existing =>
          simp only [addRestartPhase, hlk] at hk
          by_cases hch : configChanged existing.spec pf = true
          · rw [if_pos hch] at hk
            refine ih _ hrest ?_ k hk
            intro k' hk'
            rcases mem_activeNames_start_elim hk' with rfl | hmem
            · exact hpf
            · exact hst k' (mem_activeNames_stop.mp hmem).1
          · rw [if_neg hch] at hk
            exact ih _ hrest hst k hk

theorem addRestartPhase_active_sup :
    ∀ (l : List PortForwardConfiguration) (st : RunnerState),
      (∀ pf ∈ l, startForwarderOk pf = true) →
      ∀ k, (k ∈ activeNames st ∨ k ∈ l.map PortForwardConfiguration.Name) →
      k ∈ activeNames (addRestartPhase l st).1 := by
  intro l
  induction l with
  | nil =>
      intro st _ k hk
      rcases hk with hk | hk
      · exact hk
      · exact absurd hk (by simp)
  | cons pf rest ih =>
      intro st hok k hk
      have hokpf : startForwarderOk pf = true := hok pf (List.mem_cons_self pf rest)
      have hokrest : ∀ q ∈ rest, startForwarderOk q = true :=
        fun q hq => hok q (List.mem_cons_of_mem pf hq)
      rw [List.map_cons] at hk
      cases hlk : List.lookup pf.Name st.forwarders with
      | none =>
          simp only [addRestartPhase, hlk]
          refine ih _ hokrest k ?_
          rcases hk with hk | hk
          · exact Or.inl (mem_activeNames_start_of_mem hk)
          · rcases List.mem_cons.mp hk with rfl | hk'
            · exact Or.inl (pfName_mem_start hokpf)
            · exact Or.inr hk'
      | some existing =>
          simp only [addRestartPhase, hlk]
          by_cases hch : configChanged existing.spec pf = true
          · rw [if_pos hch]
            refine ih _ hokrest k ?_
            rcases hk with hk | hk
            · by_cases hkn : k = pf.Name
              · exact Or.inl (hkn ▸ pfName_mem_start hokpf)
              · exact Or.inl (mem_activeNames_start_of_mem
                  (mem_activeNames_stop.mpr ⟨hk, hkn⟩))
            · rcases List.mem_cons.mp hk with rfl | hk'
              · exact Or.inl (pfName_mem_start hokpf)
              · exact Or.inr hk'
          · rw [if_neg hch]
            refine ih _ hokrest k ?_
            rcases hk with hk | hk
            · exact Or.inl hk
            · rcases List.mem_cons.mp hk with rfl | hk'
              · exact Or.inl (mem_keys_of_lookup_some hlk)
              · exact Or.inr hk'

theorem addRestartPhase_lookup_preserved :
    ∀ (l : List PortForwardConfiguration) (st : RunnerState) (k : String),
      (∀ pf ∈ l, pf.Name ≠ k) →
      List.lookup k (addRestartPhase l st).1.forwarders =
        List.lookup k st.forwarders := by
  intro l
  induction l with
  | nil => intro st k _; rfl
  | cons pf rest ih =>
      intro st k hne
      have hpf : pf.Name ≠ k := hne pf (List.mem_cons_self pf rest)
      have hrest : ∀ q ∈ rest, q.Name ≠ k :=
        fun q hq => hne q (List.mem_cons_of_mem pf hq)
      have hkpf : k ≠ pf.Name := fun he => hpf he.symm
      cases hlk : List.lookup pf.Name st.forwarders with
      | none =>
          simp only [addRestartPhase, hlk]
          show List.lookup k
              (addRestartPhase rest (startForwarder st pf).1).1.forwarders = _
          rw [ih _ k hrest, startForwarder_lookup_ne hkpf]
      | some existing =>
          simp only [addRestartPhase, hlk]
          by_cases hch : configChanged existing.spec pf = true
          · rw [if_pos hch]
            show List.lookup k (addRestartPhase rest
                (startForwarder (stopForwarder st pf.Name).1 pf).1).1.forwarders = _
            rw [ih _ k hrest, startForwarder_lookup_ne hkpf,
              stopForwarder_forwarders, lookup_filter_ne_of_ne hkpf]
          · rw [if_neg hch]
            exact ih _ k hrest

theorem addRestartPhase_append (l1 l2 : List PortForwardConfiguration) :
    ∀ st : RunnerState,
      (addRestartPhase (l1 ++ l2) st).1 =
        (addRestartPhase l2 (addRestartPhase l1 st).1).1 ∧
      (addRestartPhase (l1 ++ l2) st).2 =
        (addRestartPhase l1 st).2 ++
          (addRestartPhase l2 (addRestartPhase l1 st).1).2 := by
  induction l1 with
  | nil => intro st; exact ⟨rfl, rfl⟩
  | cons pf rest ih =>
      intro st
      rw [List.cons_append]
      cases hlk : List.lookup pf.Name st.forwarders with
      | none =>
          simp only [addRestartPhase, hlk]
          obtain ⟨h1, h2⟩ := ih (startForwarder st pf).1
          refine ⟨h1, ?_⟩
          show (startForwarder st pf).2.1
              ++ (if (startForwarder st pf).2.2 then [REvent.logAdded pf.Name]
                  else [REvent.logFailedStart pf.Name])
              ++ (addRestartPhase (rest ++ l2) (startForwarder st pf).1).2 = _
          rw [h2]
          simp [List.append_assoc]
      | some existing =>
          simp only [addRestartPhase, hlk]
          by_cases hch : configChanged existing.spec pf = true
          · simp only [if_pos hch]
            obtain ⟨h1, h2⟩ :=
              ih (startForwarder (stopForwarder st pf.Name).1 pf).1
            refine ⟨h1, ?_⟩
            show (stopForwarder st pf.Name).2
                ++ (startForwarder (stopForwarder st pf.Name).1 pf).2.1
                ++ (if (startForwarder (stopForwarder st pf.Name).1 pf).2.2 then
                      [REvent.logRestarted pf.Name]
                    else [REvent.logFailedRestart pf.Name])
                ++ (addRestartPhase (rest ++ l2)
                      (startForwarder (stopForwarder st pf.Name).1 pf).1).2 = _
            rw [h2]
            simp [List.append_assoc]
          · simp only [if_neg hch]
            exact ih st

/-! ## `sameNames` as a pair of inclusions -/

theorem sameNames_eq_true_iff {l1 l2 : List String} :
    sameNames l1 l2 = true ↔ (∀ n ∈ l1, n ∈ l2) ∧ (∀ n ∈ l2, n ∈ l1) := by
  simp [sameNames, List.all_eq_true, List.elem_iff, List.contains]

/-! ## C1: the active set after a reload versus the configuration's names -/

/-- C1 (amended): after `reloadConfig` applies a successfully loaded
configuration, every name in the active forwarder map is a forward name of
that configuration (no session outlives its removal); and when every forward
that must be (re)started can actually be built, the active names equal the
configuration's names exactly.  (The unconditional equality of the original
claim fails when a creation fails: see the counterexample.) -/
theorem reloadConfig_config_closure (newConfig : Configuration) (st : RunnerState) :
    (∀ n, n ∈ activeNames (reloadConfig (.ok newConfig) st).1 →
      n ∈ forwardNames newConfig) ∧
    ((∀ pf ∈ newConfig.Forwards, startForwarderOk pf = true) →
      sameNames (activeNames (reloadConfig (.ok newConfig) st).1)
        (forwardNames newConfig) = true) := by
  have hred : activeNames (reloadConfig (.ok newConfig) st).1 =
      activeNames (addRestartPhase newConfig.Forwards
        (removePhase newConfig (st.forwarders.map Prod.fst) st).1).1 := rfl
  have hsub : ∀ n, n ∈ activeNames (reloadConfig (.ok newConfig) st).1 →
      n ∈ forwardNames newConfig := by
    intro n hn
    rw [hred] at hn
    refine addRestartPhase_active_sub (forwardNames newConfig)
      newConfig.Forwards _ (fun pf hpf => List.mem_map_of_mem _ hpf) ?_ n hn
    intro k hk
    obtain ⟨h1, h2⟩ := removePhase_active_sub newConfig
      (st.forwarders.map Prod.fst) st k hk
    exact h2 h1
  refine ⟨hsub, fun hall => ?_⟩
  rw [sameNames_eq_true_iff]
  refine ⟨hsub, ?_⟩
  intro n hn
  rw [hred]
  exact addRestartPhase_active_sup newConfig.Forwards _ hall n (Or.inr hn)

/-- C1 (counterexample to the claim as stated): reloading the configuration
that declares only the forward `a` with the unbuildable resource `invalid/x`
over an empty supervisor leaves the active map empty, so the active names do
not equal the configuration's names when a creation fails. -/
theorem reloadConfig_creation_failure_drops_name :
    ("a" ∈ forwardNames badCfg) ∧
    ¬("a" ∈ activeNames (reloadConfig (.ok badCfg) emptyRunner).1) := by
  decide

/-- C1 witness: reloading a configuration that keeps forward `a` and drops
`b`, with every creation succeeding, leaves the active names exactly equal to
the configuration's names. -/
theorem reloadConfig_config_closure_witness :
    (∀ pf ∈ cfgOnlyA.Forwards, startForwarderOk pf = true) ∧
    sameNames (activeNames (reloadConfig (.ok cfgOnlyA) stWithAB).1)
      (forwardNames cfgOnlyA) = true :=
  ⟨by decide, (reloadConfig_config_closure cfgOnlyA stWithAB).2 (by decide)⟩

/-! ## C3: restart ordering — cancel-half before adopt-half, no wait -/

/-- C3 (amended): when a reload changes the spec of an active name and the
new forwarder can be built, the reload's event sequence contains the
cancellation-and-removal of the old session immediately followed by the
adoption of the new one — the cancel-half strictly precedes the adopt-half —
and the stop event unmaps the name while marking the old task cancelled.
The supervisor issues the cancel but never waits for the old task to exit,
so the old and new tasks may still overlap (see the counterexample). -/
theorem reloadConfig_restart_cancel_before_adopt
    (newConfig : Configuration) (st : RunnerState)
    (pf : PortForwardConfiguration) (l1 l2 : List PortForwardConfiguration)
    (sess : Session)
    (hsplit : newConfig.Forwards = l1 ++ pf :: l2)
    (hfirst : ∀ q ∈ l1, q.Name ≠ pf.Name)
    (hlook : List.lookup pf.Name st.forwarders = some sess)
    (hch : configChanged sess.spec pf = true)
    (hok : startForwarderOk pf = true) :
    (∃ pre post, (reloadConfig (.ok newConfig) st).2 =
      pre ++ [REvent.stopSession pf.Name, REvent.startSession pf.Name] ++ post) ∧
    (∀ (co : CoState) (t : Nat), List.lookup pf.Name co.active = some t →
      List.lookup pf.Name (execStep co (.sup (.stopSession pf.Name))).active = none ∧
      ∀ tk ∈ co.tasks, tk.tid = t →
        { tk with cancelled := true } ∈
          (execStep co (.sup (.stopSession pf.Name))).tasks) := by
  constructor
  · have hmem : pf.Name ∈ forwardNames newConfig := by
      rw [forwardNames, hsplit]
      simp
    have hlook1 : List.lookup pf.Name
        (removePhase newConfig (st.forwarders.map Prod.fst) st).1.forwarders =
        some sess := by
      rw [removePhase_lookup_preserved newConfig _ st pf.Name hmem]
      exact hlook
    have hlookM : List.lookup pf.Name
        (addRestartPhase l1
          (removePhase newConfig (st.forwarders.map Prod.fst) st).1).1.forwarders =
        some sess := by
      rw [addRestartPhase_lookup_preserved l1 _ pf.Name hfirst]
      exact hlook1
    have hnone : List.lookup pf.Name
        (stopForwarder (addRestartPhase l1
          (removePhase newConfig (st.forwarders.map Prod.fst) st).1).1
          pf.Name).1.forwarders = none := by
      rw [stopForwarder_forwarders]
      exact lookup_filter_ne _ _
    obtain ⟨hstart1, hstart2⟩ := startForwarder_start_events hnone hok
    have hstep : (addRestartPhase (pf :: l2)
        (addRestartPhase l1
          (removePhase newConfig (st.forwarders.map Prod.fst) st).1).1).2 =
        [REvent.stopSession pf.Name] ++ [REvent.startSession pf.Name]
          ++ [REvent.logRestarted pf.Name]
          ++ (addRestartPhase l2
                (startForwarder (stopForwarder (addRestartPhase l1
                  (removePhase newConfig (st.forwarders.map Prod.fst) st).1).1
                  pf.Name).1 pf).1).2 := by
      simp only [addRestartPhase, hlookM, if_pos hch,
        stopForwarder_events_of_lookup hlookM, hstart1, hstart2, if_true]
    have hev : (reloadConfig (.ok newConfig) st).2 =
        [REvent.logConfigReloaded] ++
          (removePhase newConfig (st.forwarders.map Prod.fst) st).2 ++
          (addRestartPhase newConfig.Forwards
            (removePhase newConfig (st.forwarders.map Prod.fst) st).1).2 := rfl
    refine ⟨[REvent.logConfigReloaded] ++
        (removePhase newConfig (st.forwarders.map Prod.fst) st).2 ++
        (addRestartPhase l1
          (removePhase newConfig (st.forwarders.map Prod.fst) st).1).2,
      [REvent.logRestarted pf.Name] ++
        (addRestartPhase l2
          (startForwarder (stopForwarder (addRestartPhase l1
            (removePhase newConfig (st.forwarders.map Prod.fst) st).1).1
            pf.Name).1 pf).1).2, ?_⟩
    rw [hev, hsplit,
      (addRestartPhase_append l1 (pf :: l2)
        (removePhase newConfig (st.forwarders.map Prod.fst) st).1).2,
      hstep]
    simp [List.append_assoc]
  · intro co t hco
    constructor
    · simp only [execStep, hco]
      exact lookup_filter_ne _ _
    · intro tk htk htid
      simp only [execStep, hco]
      refine List.mem_map.mpr ⟨tk, htk, ?_⟩
      simp [htid]

/-- C3 (counterexample to the claim as stated): reloading `cfgA2`, which
changes forward `a`, over a supervisor whose goroutine 0 runs `a`, with no
scheduler step interleaved between the supervisor's events (the source never
waits for the cancelled task to terminate), leaves two live tasks under the
name `a`: the freshly adopted task 1 and the cancelled but not yet exited
task 0 — the old and new sessions coexist under the same name. -/
theorem restart_leaves_two_live_sessions_under_one_name :
    liveTasksNamed
      (execSched ((reloadConfig (.ok cfgA2) stWithA).2.map SchedEv.sup) coWithA)
      "a" = [⟨1, "a", false⟩, ⟨0, "a", true⟩] ∧
    (liveTasksNamed
      (execSched ((reloadConfig (.ok cfgA2) stWithA).2.map SchedEv.sup) coWithA)
      "a").length = 2 := by
  decide

/-- C3 witness: the restart-ordering theorem instantiated at the concrete
one-forward reload that restarts `a`. -/
theorem reloadConfig_restart_witness :
    (cfgA2.Forwards = [] ++ pfA2 :: []) ∧
    List.lookup "a" stWithA.forwarders = some ⟨0, pfA⟩ ∧
    configChanged pfA pfA2 = true ∧
    startForwarderOk pfA2 = true ∧
    (∃ pre post, (reloadConfig (.ok cfgA2) stWithA).2 =
      pre ++ [REvent.stopSession "a", REvent.startSession "a"] ++ post) := by
  refine ⟨rfl, rfl, by decide, by decide, ?_⟩
  exact (reloadConfig_restart_cancel_before_adopt cfgA2 stWithA pfA2 [] []
    ⟨0, pfA⟩ rfl (fun q hq => absurd hq (List.not_mem_nil q)) rfl
    (by decide) (by decide)).1

end Fwkeeper
